import Mathlib

deriving instance DecidableEq for Except

set_option maxRecDepth 8000

/-!
Verification of the FLV stream decoder (`src/reader.rs` of `flv-dump`).

The Rust code is shallowly embedded: bytes are `Nat` (each in `[0,256)` when
they come from a real buffer), the pending `BytesMut` buffer is a `List Nat`
consumed from the front, fallible conversions return `Except DecodeError`,
and the `bytes::Buf::get_u8` call on an empty buffer (which panics in Rust)
is modelled by a distinct `crash` outcome of the decode step.
-/

namespace Flv

/-- Embedding of `reader.rs::Header` (the 9-byte FLV file header). -/
structure Header where
  version : Nat
  type_ : Nat
  offset : Nat
deriving DecidableEq

/-- Embedding of `reader.rs::TagType`: 8 → Audio, 9 → Video, 18 → Script,
anything else → Reserved carrying the raw byte. -/
inductive TagType where
  | audio
  | video
  | script
  | reserved (raw : Nat)
deriving DecidableEq

/-- The tag-type classification of the first header byte, exactly the
`match tt { 8 => Audio, 9 => Video, 18 => Script, n => Reserved(*n) }`
in `BodyDecoder::decode`. -/
def TagType.ofByte (tt : Nat) : TagType :=
  if tt = 8 then .audio
  else if tt = 9 then .video
  else if tt = 18 then .script
  else .reserved tt

/-- Embedding of `reader.rs::TagHeader`. `data_size` is a `u32` (a `Nat`
below `2^32`), `timestamp` an `i32` (an `Int`). -/
structure TagHeader where
  tag_type : TagType
  data_size : Nat
  timestamp : Int
deriving DecidableEq

/-- `i32::from_be_bytes` on the 32-bit word `v % 2^32`: two's-complement
reading of an unsigned 32-bit value. -/
def toI32 (v : Nat) : Int :=
  let w := v % 4294967296
  if w < 2147483648 then (w : Int) else (w : Int) - 4294967296

/-- Errors of the decoder. The Rust code uses formatted strings
(`Box<dyn Error>`); each constructor stands for one `format!` site and
carries the value interpolated there. -/
inductive DecodeError where
  | invalidSoundFormat (n : Nat)
  | invalidSoundRate (n : Nat)
  | invalidSoundSize (n : Nat)
  | invalidSoundType (n : Nat)
  | invalidFrameType (n : Nat)
  | invalidCodecId (n : Nat)
  | invalidTagHeader (bytes : List Nat)
  | malformedSignature
deriving DecidableEq

/-- Embedding of `reader.rs::SoundFormat`. -/
inductive SoundFormat where
  | linearPCMPlatformEndian
  | adpcm
  | mp3
  | linearPCMLittleEndian
  | nellymoser16
  | nellymoser8
  | nellymoser
  | g711ALaw
  | g711MuLaw
  | reserved
  | aac
  | speex
  | mp38kHz
  | deviceSpecific
deriving DecidableEq

/-- The 4-bit code each `SoundFormat` variant stands for (the match arm it
came from in `SoundFormat::try_from`). -/
def SoundFormat.code : SoundFormat → Nat
  | .linearPCMPlatformEndian => 0
  | .adpcm => 1
  | .mp3 => 2
  | .linearPCMLittleEndian => 3
  | .nellymoser16 => 4
  | .nellymoser8 => 5
  | .nellymoser => 6
  | .g711ALaw => 7
  | .g711MuLaw => 8
  | .reserved => 9
  | .aac => 10
  | .speex => 11
  | .mp38kHz => 14
  | .deviceSpecific => 15

/-- Embedding of `impl TryFrom<u8> for SoundFormat`. -/
def SoundFormat.tryFrom (value : Nat) : Except DecodeError SoundFormat :=
  match (value &&& 0xF0) >>> 4 with
  | 0 => .ok .linearPCMPlatformEndian
  | 1 => .ok .adpcm
  | 2 => .ok .mp3
  | 3 => .ok .linearPCMLittleEndian
  | 4 => .ok .nellymoser16
  | 5 => .ok .nellymoser8
  | 6 => .ok .nellymoser
  | 7 => .ok .g711ALaw
  | 8 => .ok .g711MuLaw
  | 9 => .ok .reserved
  | 10 => .ok .aac
  | 11 => .ok .speex
  | 14 => .ok .mp38kHz
  | 15 => .ok .deviceSpecific
  | n => .error (.invalidSoundFormat n)

/-- Embedding of `reader.rs::SoundRate`. -/
inductive SoundRate where
  | r5p5kHz
  | r11kHz
  | r22kHz
  | r44kHz
deriving DecidableEq

/-- The 2-bit code of each `SoundRate` variant. -/
def SoundRate.code : SoundRate → Nat
  | .r5p5kHz => 0
  | .r11kHz => 1
  | .r22kHz => 2
  | .r44kHz => 3

/-- Embedding of `impl TryFrom<u8> for SoundRate`. -/
def SoundRate.tryFrom (value : Nat) : Except DecodeError SoundRate :=
  match (value &&& 0x0C) >>> 2 with
  | 0 => .ok .r5p5kHz
  | 1 => .ok .r11kHz
  | 2 => .ok .r22kHz
  | 3 => .ok .r44kHz
  | n => .error (.invalidSoundRate n)

/-- Embedding of `reader.rs::SoundSize`. -/
inductive SoundSize where
  | s8Bit
  | s16Bit
deriving DecidableEq

/-- The 1-bit code of each `SoundSize` variant. -/
def SoundSize.code : SoundSize → Nat
  | .s8Bit => 0
  | .s16Bit => 1

/-- Embedding of `impl TryFrom<u8> for SoundSize`. -/
def SoundSize.tryFrom (value : Nat) : Except DecodeError SoundSize :=
  match (value &&& 0x02) >>> 1 with
  | 0 => .ok .s8Bit
  | 1 => .ok .s16Bit
  | n => .error (.invalidSoundSize n)

/-- Embedding of `reader.rs::SoundType`. -/
inductive SoundType where
  | mono
  | stereo
deriving DecidableEq

/-- The 1-bit code of each `SoundType` variant. -/
def SoundType.code : SoundType → Nat
  | .mono => 0
  | .stereo => 1

/-- Embedding of `impl TryFrom<u8> for SoundType`. -/
def SoundType.tryFrom (value : Nat) : Except DecodeError SoundType :=
  match value &&& 0x01 with
  | 0 => .ok .mono
  | 1 => .ok .stereo
  | n => .error (.invalidSoundType n)

/-- Embedding of `reader.rs::AudioDataHeader`. -/
structure AudioDataHeader where
  sound_format : SoundFormat
  sound_rate : SoundRate
  sound_size : SoundSize
  sound_type : SoundType
deriving DecidableEq

/-- Embedding of `impl TryFrom<u8> for AudioDataHeader`: the four sub-field
conversions chained with `?`. -/
def AudioDataHeader.tryFrom (value : Nat) : Except DecodeError AudioDataHeader := do
  let sound_format ← SoundFormat.tryFrom value
  let sound_rate ← SoundRate.tryFrom value
  let sound_size ← SoundSize.tryFrom value
  let sound_type ← SoundType.tryFrom value
  return ⟨sound_format, sound_rate, sound_size, sound_type⟩

/-- Embedding of `reader.rs::VideoFrameType`. -/
inductive VideoFrameType where
  | keyFrame
  | interFrame
  | disposableInterFrame
  | generatedKeyFrame
  | videoInfoOrCommandFrame
deriving DecidableEq

/-- The 4-bit code of each `VideoFrameType` variant. -/
def VideoFrameType.code : VideoFrameType → Nat
  | .keyFrame => 1
  | .interFrame => 2
  | .disposableInterFrame => 3
  | .generatedKeyFrame => 4
  | .videoInfoOrCommandFrame => 5

/-- Embedding of `impl TryFrom<u8> for VideoFrameType`. -/
def VideoFrameType.tryFrom (value : Nat) : Except DecodeError VideoFrameType :=
  match (value &&& 0xF0) >>> 4 with
  | 1 => .ok .keyFrame
  | 2 => .ok .interFrame
  | 3 => .ok .disposableInterFrame
  | 4 => .ok .generatedKeyFrame
  | 5 => .ok .videoInfoOrCommandFrame
  | n => .error (.invalidFrameType n)

/-- Embedding of `reader.rs::CodecId`. -/
inductive CodecId where
  | jpeg
  | sorensonH263
  | screenVideo
  | on2VP6
  | on2VP6WithAlpha
  | screenVideoVersion2
  | avc
deriving DecidableEq

/-- The 4-bit code of each `CodecId` variant. -/
def CodecId.code : CodecId → Nat
  | .jpeg => 1
  | .sorensonH263 => 2
  | .screenVideo => 3
  | .on2VP6 => 4
  | .on2VP6WithAlpha => 5
  | .screenVideoVersion2 => 6
  | .avc => 7

/-- Embedding of `impl TryFrom<u8> for CodecId`. -/
def CodecId.tryFrom (value : Nat) : Except DecodeError CodecId :=
  match value &&& 0xF with
  | 1 => .ok .jpeg
  | 2 => .ok .sorensonH263
  | 3 => .ok .screenVideo
  | 4 => .ok .on2VP6
  | 5 => .ok .on2VP6WithAlpha
  | 6 => .ok .screenVideoVersion2
  | 7 => .ok .avc
  | n => .error (.invalidCodecId n)

/-- Embedding of `reader.rs::VideoDataHeader`. -/
structure VideoDataHeader where
  frame_type : VideoFrameType
  codec_id : CodecId
deriving DecidableEq

/-- Embedding of `impl TryFrom<u8> for VideoDataHeader`: frame type first,
then codec id, chained with `?`. -/
def VideoDataHeader.tryFrom (value : Nat) : Except DecodeError VideoDataHeader := do
  let frame_type ← VideoFrameType.tryFrom value
  let codec_id ← CodecId.tryFrom value
  return ⟨frame_type, codec_id⟩

/-- Embedding of `reader.rs::TagData`; the `Bytes` payloads are byte lists.
`audio`/`video` pair the decoded one-byte header with the remaining payload
(`data_bytes` after `get_u8`). -/
inductive TagData where
  | audio (header : AudioDataHeader) (data : List Nat)
  | video (header : VideoDataHeader) (data : List Nat)
  | script (raw : List Nat)
  | reserved (data : List Nat)
deriving DecidableEq

/-- Embedding of `reader.rs::Tag`. -/
structure Tag where
  header : TagHeader
  data : TagData
deriving DecidableEq

/-- Embedding of `reader.rs::Field`: the record the decoder emits. -/
inductive Field where
  | preTagSize (n : Nat)
  | tag (t : Tag)
deriving DecidableEq

/-- Embedding of `reader.rs::CodecStatus`, the two-valued decoder state. -/
inductive CodecStatus where
  | preTagSize
  | tag
deriving DecidableEq

/-- `impl Default for CodecStatus` / `BodyDecoder::default()`: the decoder
starts in `PreTagSize`. -/
def initialStatus : CodecStatus := .preTagSize

/-- Outcome of one `BodyDecoder::decode` call: `emit` is `Ok(Some(_))`,
`insufficient` is `Ok(None)`, `fail` is `Err(_)`, and `crash` marks the
panic of `data_bytes.get_u8()` on an empty tag body. -/
inductive StepResult where
  | emit (f : Field)
  | insufficient
  | fail (e : DecodeError)
  | crash
deriving DecidableEq

/-- `BodyDecoder::PRE_TAG_SIZE_SIZE = 32 / 8`. -/
def PRE_TAG_SIZE_SIZE : Nat := 32 / 8

/-- `BodyDecoder::TAG_HEADER_SIZE = (8 + 24 + 24 + 8 + 24) / 8`. -/
def TAG_HEADER_SIZE : Nat := (8 + 24 + 24 + 8 + 24) / 8

/-- The tag-body dispatch of `BodyDecoder::decode` after
`src.advance(11)` and `split_to(data_size)`: given the decoded header and
the `data_size` body bytes, produce the step outcome. In all branches the
Rust code has already set `self.status = PreTagSize` and consumed the
bytes, so only the emitted record / error / panic is left to compute.
`data_bytes.get_u8()` on an empty body is the `crash` case. -/
def finishTag (header : TagHeader) (data_bytes : List Nat) : StepResult :=
  match header.tag_type with
  | .audio =>
    match data_bytes with
    | [] => .crash
    | b :: payload =>
      match AudioDataHeader.tryFrom b with
      | .ok h => .emit (.tag ⟨header, .audio h payload⟩)
      | .error e => .fail e
  | .video =>
    match data_bytes with
    | [] => .crash
    | b :: payload =>
      match VideoDataHeader.tryFrom b with
      | .ok h => .emit (.tag ⟨header, .video h payload⟩)
      | .error e => .fail e
  | .script => .emit (.tag ⟨header, .script data_bytes⟩)
  | .reserved _ => .emit (.tag ⟨header, .reserved data_bytes⟩)

/-- Embedding of `BodyDecoder::decode`: one step of the state machine on
the pending buffer. Returns the new status, the remaining buffer, and the
step outcome. The Rust length guards `src.len() >= 4` / `src.len() >= 11`
become cons patterns; the slice pattern `[tt, s1, s2, s3, t1, t2, t3, t0,
0, 0, 0]` becomes the cons pattern plus the all-zero test on the three
stream-id bytes, whose failing arm is the `Invalid tag header` error;
`src.len() >= data_size + 11` becomes `data_size ≤ rest.length`. -/
def decode (status : CodecStatus) (src : List Nat) :
    CodecStatus × List Nat × StepResult :=
  match status with
  | .preTagSize =>
    match src with
    | b0 :: b1 :: b2 :: b3 :: rest =>
      (.tag, rest,
       .emit (.preTagSize (b0 * 16777216 + b1 * 65536 + b2 * 256 + b3)))
    | _ => (.preTagSize, src, .insufficient)
  | .tag =>
    match src with
    | tt :: s1 :: s2 :: s3 :: t1 :: t2 :: t3 :: t0 :: z1 :: z2 :: z3 :: rest =>
      if z1 = 0 ∧ z2 = 0 ∧ z3 = 0 then
        let data_size := s1 * 65536 + s2 * 256 + s3
        let header : TagHeader :=
          ⟨TagType.ofByte tt, data_size,
           toI32 (t0 * 16777216 + t1 * 65536 + t2 * 256 + t3)⟩
        if data_size ≤ rest.length then
          (.preTagSize, rest.drop data_size,
           finishTag header (rest.take data_size))
        else
          (.tag, src, .insufficient)
      else
        (.tag, src,
         .fail (.invalidTagHeader [tt, s1, s2, s3, t1, t2, t3, t0, z1, z2, z3]))
    | _ => (.tag, src, .insufficient)

/-- Embedding of the file-header match in `reader.rs::open_flv`: the 9-byte
array pattern `[b'F', b'L', b'V', version, type_, o1, o2, o3, o4]`, with
the fall-through `Err("invalid flv file")` as `malformedSignature`. -/
def parseFileHeader (buf : List Nat) : Except DecodeError Header :=
  match buf with
  | [b0, b1, b2, version, type_, o1, o2, o3, o4] =>
    if b0 = 70 ∧ b1 = 76 ∧ b2 = 86 then
      .ok ⟨version, type_, o1 * 16777216 + o2 * 65536 + o3 * 256 + o4⟩
    else
      .error .malformedSignature
  | _ => .error .malformedSignature

/-- Whether a record is a `PreTagSize` record. -/
def Field.isPre : Field → Bool
  | .preTagSize _ => true
  | .tag _ => false

/-- The kind of record each decoder state emits (`true` = `PreTagSize`). -/
def expectedIsPre : CodecStatus → Bool
  | .preTagSize => true
  | .tag => false

/-- The other decoder state. -/
def statusFlip : CodecStatus → CodecStatus
  | .preTagSize => .tag
  | .tag => .preTagSize

/-- `alternatesFrom b fs` holds when the record kinds in `fs` strictly
alternate, the first one being a `PreTagSize` record exactly when `b`. -/
def alternatesFrom : Bool → List Field → Bool
  | _, [] => true
  | b, f :: fs => f.isPre == b && alternatesFrom (!b) fs

/-- The driver loop around `BodyDecoder::decode` (what `FramedRead` does
with one fixed buffer): repeatedly call `decode`, collecting emitted
records, until it reports insufficient data, an error, or the panic.
Structural fuel; with `src.length < fuel` the fuel never runs out because
every emission consumes at least one byte. -/
def drainAux : Nat → CodecStatus → List Nat → List Field × CodecStatus × List Nat × StepResult
  | 0, s, src => ([], s, src, .insufficient)
  | fuel + 1, s, src =>
    match decode s src with
    | (s', src', .emit f) =>
      let r := drainAux fuel s' src'
      (f :: r.1, r.2)
    | (s', src', res) => ([], s', src', res)

/-- Run the decoder to quiescence on one buffer. -/
def drain (s : CodecStatus) (src : List Nat) :
    List Field × CodecStatus × List Nat × StepResult :=
  drainAux (src.length + 1) s src

/-- Chunked delivery: append each chunk to the pending buffer, drain, and
retry with the next chunk on insufficient data; stop at the first error or
panic. Mirrors a driver feeding the decoder arbitrary chunkings. -/
def feedChunks (s : CodecStatus) (pending : List Nat) :
    List (List Nat) → List Field × CodecStatus × List Nat × StepResult
  | [] => ([], s, pending, .insufficient)
  | c :: cs =>
    let r := drain s (pending ++ c)
    match r.2.2.2 with
    | .insufficient =>
      let r2 := feedChunks r.2.1 r.2.2.1 cs
      (r.1 ++ r2.1, r2.2)
    | stop => (r.1, r.2.1, r.2.2.1, stop)

/-- `finishTag` never reports insufficient data: by the time the body is
dispatched the whole body is buffered. -/
theorem finishTag_ne_insufficient (header : TagHeader) (db : List Nat) :
    finishTag header db ≠ .insufficient := by
  unfold finishTag
  cases header.tag_type <;> cases db <;> simp <;> split <;> simp

/-- A decode step that reports insufficient data leaves the state and the
buffer unchanged. -/
theorem decode_insufficient_eq (s : CodecStatus) (src : List Nat)
    (s' : CodecStatus) (src' : List Nat)
    (h : decode s src = (s', src', .insufficient)) : s' = s ∧ src' = src := by
  cases s
  · rcases src with _ | ⟨b0, _ | ⟨b1, _ | ⟨b2, _ | ⟨b3, rest⟩⟩⟩⟩ <;>
      simp only [decode] at h <;>
      simp_all
  · rcases src with _ | ⟨tt, _ | ⟨s1, _ | ⟨s2, _ | ⟨s3, _ | ⟨t1, _ | ⟨t2, _ |
      ⟨t3, _ | ⟨t0, _ | ⟨z1, _ | ⟨z2, _ | ⟨z3, rest⟩⟩⟩⟩⟩⟩⟩⟩⟩⟩⟩ <;>
      simp only [decode] at h
    case cons.cons.cons.cons.cons.cons.cons.cons.cons.cons.cons =>
      by_cases hz : z1 = 0 ∧ z2 = 0 ∧ z3 = 0
      · rw [if_pos hz] at h
        by_cases hlen : s1 * 65536 + s2 * 256 + s3 ≤ rest.length
        · rw [if_pos hlen] at h
          exact absurd (congrArg (fun p => p.2.2) h)
            (finishTag_ne_insufficient _ _)
        · rw [if_neg hlen] at h
          simp_all
      · rw [if_neg hz] at h
        simp_all
    all_goals simp_all

/-- A decode step never grows the buffer. -/
theorem decode_buf_le (s : CodecStatus) (src : List Nat) :
    (decode s src).2.1.length ≤ src.length := by
  cases s
  · rcases src with _ | ⟨b0, _ | ⟨b1, _ | ⟨b2, _ | ⟨b3, rest⟩⟩⟩⟩ <;>
      simp [decode] <;> omega
  · rcases src with _ | ⟨tt, _ | ⟨s1, _ | ⟨s2, _ | ⟨s3, _ | ⟨t1, _ | ⟨t2, _ |
      ⟨t3, _ | ⟨t0, _ | ⟨z1, _ | ⟨z2, _ | ⟨z3, rest⟩⟩⟩⟩⟩⟩⟩⟩⟩⟩⟩ <;>
      simp only [decode] <;> try simp
    split_ifs <;> simp <;> omega

/-- A decode step that emits a record consumes at least one byte: the
remaining buffer is strictly shorter. -/
theorem decode_emit_shrinks (s : CodecStatus) (src : List Nat)
    (s' : CodecStatus) (src' : List Nat) (f : Field)
    (h : decode s src = (s', src', .emit f)) : src'.length < src.length := by
  cases s
  · rcases src with _ | ⟨b0, _ | ⟨b1, _ | ⟨b2, _ | ⟨b3, rest⟩⟩⟩⟩ <;>
      simp only [decode] at h <;> simp_all <;> omega
  · rcases src with _ | ⟨tt, _ | ⟨s1, _ | ⟨s2, _ | ⟨s3, _ | ⟨t1, _ | ⟨t2, _ |
      ⟨t3, _ | ⟨t0, _ | ⟨z1, _ | ⟨z2, _ | ⟨z3, rest⟩⟩⟩⟩⟩⟩⟩⟩⟩⟩⟩ <;>
      simp only [decode] at h
    case cons.cons.cons.cons.cons.cons.cons.cons.cons.cons.cons =>
      by_cases hz : z1 = 0 ∧ z2 = 0 ∧ z3 = 0
      · rw [if_pos hz] at h
        by_cases hlen : s1 * 65536 + s2 * 256 + s3 ≤ rest.length
        · rw [if_pos hlen] at h
          have hsrc : src' = rest.drop (s1 * 65536 + s2 * 256 + s3) :=
            (congrArg (fun p => p.2.1) h).symm
          subst hsrc
          simp
          omega
        · rw [if_neg hlen] at h
          simp_all
      · rw [if_neg hz] at h
        simp_all
    all_goals simp_all

/-- Monotonicity of the decode step under appending bytes: any outcome
other than "insufficient data" (an emission, an error, or the panic) is
unchanged when more bytes are appended to the back of the buffer, and the
appended bytes pass through to the remaining buffer untouched. -/
theorem decode_append (s : CodecStatus) (a b : List Nat)
    (s' : CodecStatus) (a' : List Nat) (r : StepResult)
    (h : decode s a = (s', a', r)) (hr : r ≠ .insufficient) :
    decode s (a ++ b) = (s', a' ++ b, r) := by
  cases s
  · rcases a with _ | ⟨b0, _ | ⟨b1, _ | ⟨b2, _ | ⟨b3, rest⟩⟩⟩⟩ <;>
      simp only [decode] at h <;> simp_all [decode]
  · rcases a with _ | ⟨tt, _ | ⟨s1, _ | ⟨s2, _ | ⟨s3, _ | ⟨t1, _ | ⟨t2, _ |
      ⟨t3, _ | ⟨t0, _ | ⟨z1, _ | ⟨z2, _ | ⟨z3, rest⟩⟩⟩⟩⟩⟩⟩⟩⟩⟩⟩ <;>
      simp only [decode] at h
    case cons.cons.cons.cons.cons.cons.cons.cons.cons.cons.cons =>
      by_cases hz : z1 = 0 ∧ z2 = 0 ∧ z3 = 0
      · rw [if_pos hz] at h
        by_cases hlen : s1 * 65536 + s2 * 256 + s3 ≤ rest.length
        · rw [if_pos hlen] at h
          have hlen' : s1 * 65536 + s2 * 256 + s3 ≤ (rest ++ b).length := by
            simp
            omega
          simp only [List.cons_append, decode, if_pos hz, if_pos hlen',
            List.take_append_of_le_length hlen,
            List.drop_append_of_le_length hlen]
          simp only [Prod.mk.injEq] at h
          obtain ⟨h1, h2, h3⟩ := h
          subst h1
          subst h2
          subst h3
          rfl
        · rw [if_neg hlen] at h
          simp_all
      · rw [if_neg hz] at h
        obtain ⟨hs, ha, hrr⟩ := Prod.mk.injEq .. ▸ h
        simp only [List.cons_append, decode, if_neg hz]
        simp_all
    all_goals simp_all

/-- With enough fuel (more than the buffer length), the exact amount of
fuel does not matter: every emission consumes at least one byte. -/
theorem drainAux_congr : ∀ (f1 f2 : Nat) (s : CodecStatus) (src : List Nat),
    src.length < f1 → src.length < f2 → drainAux f1 s src = drainAux f2 s src := by
  intro f1
  induction f1 with
  | zero =>
    intro f2 s src h1 _
    omega
  | succ f1 ih =>
    intro f2 s src h1 h2
    cases f2 with
    | zero => omega
    | succ f2 =>
      rcases hd : decode s src with ⟨s', src', res⟩
      cases res with
      | emit f =>
        have hs := decode_emit_shrinks s src s' src' f hd
        simp only [drainAux, hd]
        rw [ih f2 s' src' (by omega) (by omega)]
      | insufficient => simp only [drainAux, hd]
      | fail e => simp only [drainAux, hd]
      | crash => simp only [drainAux, hd]

/-- Draining never grows the buffer. -/
theorem drainAux_buf_le : ∀ (fuel : Nat) (s : CodecStatus) (src : List Nat),
    (drainAux fuel s src).2.2.1.length ≤ src.length := by
  intro fuel
  induction fuel with
  | zero =>
    intro s src
    simp [drainAux]
  | succ fuel ih =>
    intro s src
    rcases hd : decode s src with ⟨s', src', res⟩
    have hle : src'.length ≤ src.length := by
      have := decode_buf_le s src
      rw [hd] at this
      exact this
    cases res with
    | emit f =>
      simp only [drainAux, hd]
      exact le_trans (ih s' src') hle
    | insufficient => simp only [drainAux, hd]; exact hle
    | fail e => simp only [drainAux, hd]; exact hle
    | crash => simp only [drainAux, hd]; exact hle

/-- When draining stops with "insufficient data", the final state and
buffer are themselves quiescent: one more decode step still reports
insufficient data without changing anything. -/
theorem drainAux_final : ∀ (fuel : Nat) (s : CodecStatus) (src : List Nat),
    src.length < fuel →
    ∀ fs s1 a1, drainAux fuel s src = (fs, s1, a1, .insufficient) →
    decode s1 a1 = (s1, a1, .insufficient) := by
  intro fuel
  induction fuel with
  | zero =>
    intro s src h
    omega
  | succ fuel ih =>
    intro s src h fs s1 a1 hdr
    rcases hd : decode s src with ⟨s', src', res⟩
    cases res with
    | emit f =>
      have hs := decode_emit_shrinks s src s' src' f hd
      simp only [drainAux, hd] at hdr
      rcases hr : drainAux fuel s' src' with ⟨fs', s1', a1', st'⟩
      rw [hr] at hdr
      simp only [Prod.mk.injEq] at hdr
      obtain ⟨-, h1, h2, h3⟩ := hdr
      rw [← h1, ← h2]
      exact ih s' src' (by omega) fs' s1' a1' (h3 ▸ hr)
    | insufficient =>
      simp only [drainAux, hd] at hdr
      simp only [Prod.mk.injEq] at hdr
      obtain ⟨-, h1, h2, -⟩ := hdr
      rw [← h1, ← h2]
      obtain ⟨e1, e2⟩ := decode_insufficient_eq s src s' src' hd
      rw [e1, e2]
      rw [e1, e2] at hd
      exact hd
    | fail e =>
      simp only [drainAux, hd] at hdr
      simp only [Prod.mk.injEq] at hdr
      exact absurd hdr.2.2.2 (by simp)
    | crash =>
      simp only [drainAux, hd] at hdr
      simp only [Prod.mk.injEq] at hdr
      exact absurd hdr.2.2.2 (by simp)

/-- Appending bytes after draining: if draining `a` stopped on
insufficient data, draining `a ++ b` first replays exactly the records of
`a` and then continues from the stopping state on the leftover plus `b`;
if draining `a` stopped on an error or the panic, draining `a ++ b` stops
identically, with `b` passed through untouched. Fuel-level version. -/
theorem drainAux_append (b : List Nat) : ∀ (fuel : Nat) (s : CodecStatus) (a : List Nat),
    (a ++ b).length < fuel →
    ∀ fs s1 a1 st, drainAux fuel s a = (fs, s1, a1, st) →
    (st = .insufficient →
      drainAux fuel s (a ++ b) =
        (fs ++ (drainAux fuel s1 (a1 ++ b)).1, (drainAux fuel s1 (a1 ++ b)).2)) ∧
    (st ≠ .insufficient →
      drainAux fuel s (a ++ b) = (fs, s1, a1 ++ b, st)) := by
  intro fuel
  induction fuel with
  | zero =>
    intro s a h
    exact absurd h (by omega)
  | succ fuel ih =>
    intro s a h fs s1 a1 st hdr
    rcases hd : decode s a with ⟨s', a', res⟩
    cases res with
    | emit f =>
      have hshrink := decode_emit_shrinks s a s' a' f hd
      have hd2 : decode s (a ++ b) = (s', a' ++ b, .emit f) :=
        decode_append s a b s' a' (.emit f) hd (by simp)
      simp only [drainAux, hd] at hdr
      rcases hr : drainAux fuel s' a' with ⟨fs', s1', a1', st'⟩
      rw [hr] at hdr
      simp only [Prod.mk.injEq] at hdr
      obtain ⟨hfs, hs1, ha1, hst⟩ := hdr
      have hbound : (a' ++ b).length < fuel := by
        simp at h ⊢
        omega
      have ha1le : a1'.length ≤ a'.length := by
        have := drainAux_buf_le fuel s' a'
        rw [hr] at this
        exact this
      obtain ⟨ihIns, ihStop⟩ := ih s' a' hbound fs' s1' a1' st' hr
      constructor
      · intro hstI
        have hstI' : st' = .insufficient := by rw [hst]; exact hstI
        have hinner : drainAux fuel s1' (a1' ++ b) =
            drainAux (fuel + 1) s1' (a1' ++ b) := by
          apply drainAux_congr
          · simp at h ⊢
            omega
          · simp at h ⊢
            omega
        simp only [drainAux, hd2, ihIns hstI', ← hfs, ← hs1, ← ha1, hinner]
        simp
      · intro hstN
        have hstN' : st' ≠ .insufficient := by rw [hst]; exact hstN
        simp only [drainAux, hd2, ihStop hstN', ← hfs, ← hs1, ← ha1, ← hst]
    | insufficient =>
      obtain ⟨e1, e2⟩ := decode_insufficient_eq s a s' a' hd
      simp only [drainAux, hd] at hdr
      simp only [Prod.mk.injEq] at hdr
      obtain ⟨hfs, hs1, ha1, hst⟩ := hdr
      constructor
      · intro _
        rw [← hfs, ← hs1, ← ha1, e1, e2]
        simp
      · intro hstN
        exact absurd hst.symm hstN
    | fail e =>
      have hd2 : decode s (a ++ b) = (s', a' ++ b, .fail e) :=
        decode_append s a b s' a' (.fail e) hd (by simp)
      simp only [drainAux, hd] at hdr
      simp only [Prod.mk.injEq] at hdr
      obtain ⟨hfs, hs1, ha1, hst⟩ := hdr
      constructor
      · intro hstI
        rw [← hst] at hstI
        exact absurd hstI (by simp)
      · intro _
        simp only [drainAux, hd2, ← hfs, ← hs1, ← ha1, ← hst]
    | crash =>
      have hd2 : decode s (a ++ b) = (s', a' ++ b, .crash) :=
        decode_append s a b s' a' .crash hd (by simp)
      simp only [drainAux, hd] at hdr
      simp only [Prod.mk.injEq] at hdr
      obtain ⟨hfs, hs1, ha1, hst⟩ := hdr
      constructor
      · intro hstI
        rw [← hst] at hstI
        exact absurd hstI (by simp)
      · intro _
        simp only [drainAux, hd2, ← hfs, ← hs1, ← ha1, ← hst]

/-- When draining stops with "insufficient data", one more decode step on
the final state and buffer still reports insufficient data. -/
theorem drain_final (s : CodecStatus) (src : List Nat) (fs : List Field)
    (s1 : CodecStatus) (a1 : List Nat)
    (h : drain s src = (fs, s1, a1, .insufficient)) :
    decode s1 a1 = (s1, a1, .insufficient) :=
  drainAux_final (src.length + 1) s src (by omega) fs s1 a1 h

/-- Drain-level version of `drainAux_append`. -/
theorem drain_append (s : CodecStatus) (a b : List Nat) (fs : List Field)
    (s1 : CodecStatus) (a1 : List Nat) (st : StepResult)
    (h : drain s a = (fs, s1, a1, st)) :
    (st = .insufficient →
      drain s (a ++ b) =
        (fs ++ (drain s1 (a1 ++ b)).1, (drain s1 (a1 ++ b)).2)) ∧
    (st ≠ .insufficient → drain s (a ++ b) = (fs, s1, a1 ++ b, st)) := by
  have ha1le : a1.length ≤ a.length := by
    have := drainAux_buf_le (a.length + 1) s a
    rw [show drainAux (a.length + 1) s a = (fs, s1, a1, st) from h] at this
    exact this
  have hF : drainAux ((a ++ b).length + 1) s a = (fs, s1, a1, st) := by
    rw [drainAux_congr ((a ++ b).length + 1) (a.length + 1) s a
      (by simp only [List.length_append]; omega) (by omega)]
    exact h
  obtain ⟨p1, p2⟩ := drainAux_append b ((a ++ b).length + 1) s a
    (by omega) fs s1 a1 st hF
  constructor
  · intro hst
    have hinner : drainAux ((a ++ b).length + 1) s1 (a1 ++ b) =
        drain s1 (a1 ++ b) := by
      apply drainAux_congr
      · simp
        omega
      · omega
    rw [show drain s (a ++ b) = drainAux ((a ++ b).length + 1) s (a ++ b)
      from rfl, p1 hst, hinner]
  · intro hst
    rw [show drain s (a ++ b) = drainAux ((a ++ b).length + 1) s (a ++ b)
      from rfl, p2 hst]

/-- Chunked feeding produces the same record sequence as draining the
concatenation of all chunks at once, provided the starting pending buffer
is quiescent (one decode step on it reports insufficient data). -/
theorem feedChunks_fields :
    ∀ (chunks : List (List Nat)) (s : CodecStatus) (pending : List Nat),
    decode s pending = (s, pending, .insufficient) →
    (feedChunks s pending chunks).1 = (drain s (pending ++ chunks.join)).1 := by
  intro chunks
  induction chunks with
  | nil =>
    intro s pending h
    simp only [feedChunks]
    rw [show ([] : List (List Nat)).join = [] from rfl, List.append_nil]
    rw [show drain s pending = drainAux (pending.length + 1) s pending from rfl]
    simp only [drainAux, h]
  | cons c cs ih =>
    intro s pending h
    rcases hr : drain s (pending ++ c) with ⟨fs, s1, a1, st⟩
    have hjoin : pending ++ (c :: cs).join = (pending ++ c) ++ cs.join := by
      simp
    obtain ⟨p1, p2⟩ := drain_append s (pending ++ c) cs.join fs s1 a1 st hr
    cases st with
    | insufficient =>
      have hquiet : decode s1 a1 = (s1, a1, .insufficient) :=
        drain_final s (pending ++ c) fs s1 a1 hr
      have lhs : (feedChunks s pending (c :: cs)).1 =
          fs ++ (feedChunks s1 a1 cs).1 := by
        simp only [feedChunks, hr]
      rw [lhs, ih s1 a1 hquiet, hjoin, p1 rfl]
    | emit f =>
      have lhs : (feedChunks s pending (c :: cs)).1 = fs := by
        simp only [feedChunks, hr]
      rw [lhs, hjoin, p2 (by simp)]
    | fail e =>
      have lhs : (feedChunks s pending (c :: cs)).1 = fs := by
        simp only [feedChunks, hr]
      rw [lhs, hjoin, p2 (by simp)]
    | crash =>
      have lhs : (feedChunks s pending (c :: cs)).1 = fs := by
        simp only [feedChunks, hr]
      rw [lhs, hjoin, p2 (by simp)]

/-- The tag-body dispatch only ever emits `Tag` records. -/
theorem finishTag_emit_tag (header : TagHeader) (db : List Nat) (f : Field)
    (h : finishTag header db = .emit f) : ∃ t, f = .tag t := by
  obtain ⟨ty, ds, ts⟩ := header
  cases ty with
  | audio =>
    rcases db with _ | ⟨b, payload⟩
    · simp [finishTag] at h
    · simp only [finishTag] at h
      rcases ha : AudioDataHeader.tryFrom b with e | hh <;> rw [ha] at h <;>
        simp_all
      exact ⟨_, h.symm⟩
  | video =>
    rcases db with _ | ⟨b, payload⟩
    · simp [finishTag] at h
    · simp only [finishTag] at h
      rcases hv : VideoDataHeader.tryFrom b with e | hh <;> rw [hv] at h <;>
        simp_all
      exact ⟨_, h.symm⟩
  | script =>
    simp only [finishTag] at h
    simp_all
    exact ⟨_, h.symm⟩
  | reserved raw =>
    simp only [finishTag] at h
    simp_all
    exact ⟨_, h.symm⟩

/-- Each state emits only its own record kind, and every emission flips
the state. -/
theorem decode_emit_kind (s : CodecStatus) (src : List Nat)
    (s' : CodecStatus) (src' : List Nat) (f : Field)
    (h : decode s src = (s', src', .emit f)) :
    f.isPre = expectedIsPre s ∧ s' = statusFlip s := by
  cases s
  · rcases src with _ | ⟨b0, _ | ⟨b1, _ | ⟨b2, _ | ⟨b3, rest⟩⟩⟩⟩ <;>
      simp only [decode] at h
    case cons.cons.cons.cons =>
      simp only [Prod.mk.injEq] at h
      obtain ⟨h1, h2, h3⟩ := h
      injection h3 with h3
      subst h3
      exact ⟨rfl, h1.symm⟩
    all_goals simp_all
  · rcases src with _ | ⟨tt, _ | ⟨s1, _ | ⟨s2, _ | ⟨s3, _ | ⟨t1, _ | ⟨t2, _ |
      ⟨t3, _ | ⟨t0, _ | ⟨z1, _ | ⟨z2, _ | ⟨z3, rest⟩⟩⟩⟩⟩⟩⟩⟩⟩⟩⟩ <;>
      simp only [decode] at h
    case cons.cons.cons.cons.cons.cons.cons.cons.cons.cons.cons =>
      by_cases hz : z1 = 0 ∧ z2 = 0 ∧ z3 = 0
      · rw [if_pos hz] at h
        by_cases hlen : s1 * 65536 + s2 * 256 + s3 ≤ rest.length
        · rw [if_pos hlen] at h
          have hs' : s' = .preTagSize := (congrArg (fun p => p.1) h).symm
          have hf : finishTag _ _ = .emit f := congrArg (fun p => p.2.2) h
          obtain ⟨t, rfl⟩ := finishTag_emit_tag _ _ f hf
          exact ⟨rfl, by rw [hs']; rfl⟩
        · rw [if_neg hlen] at h
          simp_all
      · rw [if_neg hz] at h
        simp_all
    all_goals simp_all

/-- The records drained from any buffer strictly alternate in kind,
starting with the kind of the current state. -/
theorem drainAux_alternates : ∀ (fuel : Nat) (s : CodecStatus) (src : List Nat),
    alternatesFrom (expectedIsPre s) (drainAux fuel s src).1 = true := by
  intro fuel
  induction fuel with
  | zero =>
    intro s src
    simp [drainAux, alternatesFrom]
  | succ fuel ih =>
    intro s src
    rcases hd : decode s src with ⟨s', src', res⟩
    cases res with
    | emit f =>
      obtain ⟨hkind, hflip⟩ := decode_emit_kind s src s' src' f hd
      simp only [drainAux, hd, alternatesFrom]
      rw [hkind]
      have hnot : (!expectedIsPre s) = expectedIsPre s' := by
        rw [hflip]
        cases s <;> rfl
      rw [hnot]
      simp [ih]
    | insufficient => simp [drainAux, hd, alternatesFrom]
    | fail e => simp [drainAux, hd, alternatesFrom]
    | crash => simp [drainAux, hd, alternatesFrom]

/-- `toI32` always lands in the signed 32-bit range. -/
theorem toI32_range (v : Nat) : -2147483648 ≤ toI32 v ∧ toI32 v < 2147483648 := by
  simp only [toI32]
  split_ifs <;> omega

/-- Every record emitted by the body dispatch carries the tag header it
was given, unchanged. -/
theorem finishTag_emit_header (header : TagHeader) (db : List Nat) (t : Tag)
    (h : finishTag header db = .emit (.tag t)) : t.header = header := by
  obtain ⟨ty, ds, ts⟩ := header
  cases ty with
  | audio =>
    rcases db with _ | ⟨b, payload⟩
    · simp [finishTag] at h
    · simp only [finishTag] at h
      rcases ha : AudioDataHeader.tryFrom b with e | hh <;> rw [ha] at h <;>
        simp_all
      subst h
      rfl
  | video =>
    rcases db with _ | ⟨b, payload⟩
    · simp [finishTag] at h
    · simp only [finishTag] at h
      rcases hv : VideoDataHeader.tryFrom b with e | hh <;> rw [hv] at h <;>
        simp_all
      subst h
      rfl
  | script =>
    simp only [finishTag] at h
    simp_all
    subst h
    rfl
  | reserved raw =>
    simp only [finishTag] at h
    simp_all
    subst h
    rfl

/-- The payload carried by an emitted tag record: the body minus the one
decoded header byte for audio and video, the whole body for script and
reserved tags. -/
theorem finishTag_emit_data (header : TagHeader) (db : List Nat) (t : Tag)
    (h : finishTag header db = .emit (.tag t)) :
    (∀ ah p, t.data = .audio ah p → p.length = db.length - 1) ∧
    (∀ vh p, t.data = .video vh p → p.length = db.length - 1) ∧
    (∀ p, t.data = .script p → p.length = db.length) ∧
    (∀ p, t.data = .reserved p → p.length = db.length) := by
  obtain ⟨ty, ds, ts⟩ := header
  cases ty with
  | audio =>
    rcases db with _ | ⟨b, payload⟩
    · simp [finishTag] at h
    · simp only [finishTag] at h
      rcases ha : AudioDataHeader.tryFrom b with e | hh <;> rw [ha] at h <;>
        simp_all
      subst h
      simp
  | video =>
    rcases db with _ | ⟨b, payload⟩
    · simp [finishTag] at h
    · simp only [finishTag] at h
      rcases hv : VideoDataHeader.tryFrom b with e | hh <;> rw [hv] at h <;>
        simp_all
      subst h
      simp
  | script =>
    simp only [finishTag] at h
    simp_all
    subst h
    simp
  | reserved raw =>
    simp only [finishTag] at h
    simp_all
    subst h
    simp

/-- C1: in either decoder state, when fewer bytes are buffered than the
state requires (fewer than 4 awaiting a previous tag size; fewer than 11,
or fewer than 11 plus the decoded data size, awaiting a tag), the decode
step returns the insufficient-data result, consumes nothing, and leaves
both the buffer and the state unchanged. -/
theorem claim_C1_insufficient_no_consume :
    (∀ src : List Nat, src.length < PRE_TAG_SIZE_SIZE →
      decode .preTagSize src = (.preTagSize, src, .insufficient)) ∧
    (∀ src : List Nat, src.length < TAG_HEADER_SIZE →
      decode .tag src = (.tag, src, .insufficient)) ∧
    (∀ tt s1 s2 s3 t1 t2 t3 t0 : Nat, ∀ rest : List Nat,
      (tt :: s1 :: s2 :: s3 :: t1 :: t2 :: t3 :: t0 :: 0 :: 0 :: 0 :: rest).length <
        TAG_HEADER_SIZE + (s1 * 65536 + s2 * 256 + s3) →
      decode .tag (tt :: s1 :: s2 :: s3 :: t1 :: t2 :: t3 :: t0 :: 0 :: 0 :: 0 :: rest) =
        (.tag, tt :: s1 :: s2 :: s3 :: t1 :: t2 :: t3 :: t0 :: 0 :: 0 :: 0 :: rest,
         .insufficient)) := by
  refine ⟨?_, ?_, ?_⟩
  · intro src h
    rcases src with _ | ⟨b0, _ | ⟨b1, _ | ⟨b2, _ | ⟨b3, rest⟩⟩⟩⟩ <;>
      first
        | rfl
        | (exfalso; simp [PRE_TAG_SIZE_SIZE] at h; omega)
  · intro src h
    rcases src with _ | ⟨tt, _ | ⟨s1, _ | ⟨s2, _ | ⟨s3, _ | ⟨t1, _ | ⟨t2, _ |
      ⟨t3, _ | ⟨t0, _ | ⟨z1, _ | ⟨z2, _ | ⟨z3, rest⟩⟩⟩⟩⟩⟩⟩⟩⟩⟩⟩ <;>
      first
        | rfl
        | (exfalso; simp [TAG_HEADER_SIZE] at h; omega)
  · intro tt s1 s2 s3 t1 t2 t3 t0 rest h
    simp only [List.length_cons, TAG_HEADER_SIZE] at h
    have hlen : ¬ (s1 * 65536 + s2 * 256 + s3 ≤ rest.length) := by omega
    simp only [decode, if_neg hlen]
    simp

/-- Witness for C1 at concrete short buffers. -/
theorem claim_C1_witness :
    ([6] : List Nat).length < PRE_TAG_SIZE_SIZE ∧
    decode .preTagSize [6] = (.preTagSize, [6], .insufficient) :=
  ⟨by decide, claim_C1_insufficient_no_consume.1 [6] (by decide)⟩

/-- C2: feeding a byte stream in arbitrary chunks (appending each chunk to
the pending buffer and retrying on insufficient data) emits the same
ordered record sequence as feeding all bytes in one chunk, whenever the
whole stream decodes without error. -/
theorem claim_C2_chunking (chunks : List (List Nat))
    (hok : (drain initialStatus chunks.join).2.2.2 = .insufficient) :
    (feedChunks initialStatus [] chunks).1 = (drain initialStatus chunks.join).1 := by
  have h0 : decode initialStatus [] = (initialStatus, [], .insufficient) := by decide
  have h := feedChunks_fields chunks initialStatus [] h0
  rwa [List.nil_append] at h

/-- Witness for C2: a previous-tag-size field split across two chunks. -/
theorem claim_C2_witness :
    (drain initialStatus ([[0, 0], [0, 0]] : List (List Nat)).join).2.2.2 =
      .insufficient ∧
    (feedChunks initialStatus [] [[0, 0], [0, 0]]).1 =
      (drain initialStatus ([[0, 0], [0, 0]] : List (List Nat)).join).1 :=
  ⟨by decide, claim_C2_chunking [[0, 0], [0, 0]] (by decide)⟩

/-- C3: each decoder state emits only its own record kind and every
successful emission flips the state; consequently the records drained
from the initial state strictly alternate, beginning with a
`PreTagSize` record. -/
theorem claim_C3_alternation :
    (∀ (s : CodecStatus) (src : List Nat) (s' : CodecStatus) (src' : List Nat)
      (f : Field), decode s src = (s', src', .emit f) →
      f.isPre = expectedIsPre s ∧ s' = statusFlip s) ∧
    (∀ src : List Nat, alternatesFrom true (drain initialStatus src).1 = true) :=
  ⟨decode_emit_kind, fun src => drainAux_alternates (src.length + 1) initialStatus src⟩

/-- Witness for C3 at a concrete emitting step. -/
theorem claim_C3_witness :
    Field.isPre (.preTagSize 0) = expectedIsPre .preTagSize ∧
    CodecStatus.tag = statusFlip .preTagSize :=
  claim_C3_alternation.1 .preTagSize [0, 0, 0, 0] .tag [] (.preTagSize 0) (by decide)

/-- C4: whenever a tag is accepted from an 11-byte header (here as the
first 11 buffered bytes, stream-id zero) the emitted record's header has
the tag type classified from byte 0 (8 → audio, 9 → video, 18 → script,
otherwise reserved with the raw byte), the data size equal to the 24-bit
big-endian value of bytes 1-3 (hence below `2^24` for byte-valued input),
and the timestamp equal to the signed 32-bit value whose top byte is the
extension byte at offset 7 and whose low 24 bits are bytes 4-6. -/
theorem claim_C4_header_fields
    (tt s1 s2 s3 t1 t2 t3 t0 : Nat) (rest : List Nat)
    (s' : CodecStatus) (b : List Nat) (t : Tag)
    (hs1 : s1 < 256) (hs2 : s2 < 256) (hs3 : s3 < 256)
    (h : decode .tag
        (tt :: s1 :: s2 :: s3 :: t1 :: t2 :: t3 :: t0 :: 0 :: 0 :: 0 :: rest) =
      (s', b, .emit (.tag t))) :
    (tt = 8 → t.header.tag_type = .audio) ∧
    (tt = 9 → t.header.tag_type = .video) ∧
    (tt = 18 → t.header.tag_type = .script) ∧
    (tt ≠ 8 → tt ≠ 9 → tt ≠ 18 → t.header.tag_type = .reserved tt) ∧
    t.header.data_size = s1 * 65536 + s2 * 256 + s3 ∧
    t.header.data_size < 16777216 ∧
    t.header.timestamp = toI32 (t0 * 16777216 + t1 * 65536 + t2 * 256 + t3) ∧
    -2147483648 ≤ t.header.timestamp ∧ t.header.timestamp < 2147483648 := by
  simp only [decode] at h
  rw [if_pos ⟨trivial, trivial, trivial⟩] at h
  by_cases hlen : s1 * 65536 + s2 * 256 + s3 ≤ rest.length
  · rw [if_pos hlen] at h
    have hf : finishTag _ _ = .emit (.tag t) := congrArg (fun p => p.2.2) h
    have hhead := finishTag_emit_header _ _ t hf
    have hty : t.header.tag_type = TagType.ofByte tt := by rw [hhead]
    have hds : t.header.data_size = s1 * 65536 + s2 * 256 + s3 := by rw [hhead]
    have hts : t.header.timestamp =
        toI32 (t0 * 16777216 + t1 * 65536 + t2 * 256 + t3) := by rw [hhead]
    refine ⟨?_, ?_, ?_, ?_, hds, by omega, hts, ?_, ?_⟩
    · intro he
      rw [hty]
      simp [TagType.ofByte, he]
    · intro he
      rw [hty]
      simp [TagType.ofByte, he]
    · intro he
      rw [hty]
      simp [TagType.ofByte, he]
    · intro h8 h9 h18
      rw [hty]
      simp [TagType.ofByte, h8, h9, h18]
    · rw [hts]
      exact (toI32_range _).1
    · rw [hts]
      exact (toI32_range _).2
  · rw [if_neg hlen] at h
    simp at h

/-- Witness for C4 at a concrete accepted audio tag. -/
theorem claim_C4_witness :
    (0 : Nat) < 256 ∧
    ((8 = 8 → TagType.audio = TagType.audio) ∧
     (8 = 9 → TagType.audio = TagType.video) ∧
     (8 = 18 → TagType.audio = TagType.script) ∧
     (8 ≠ 8 → 8 ≠ 9 → 8 ≠ 18 → TagType.audio = TagType.reserved 8) ∧
     (2 : Nat) = 0 * 65536 + 0 * 256 + 2 ∧
     (2 : Nat) < 16777216 ∧
     (0 : Int) = toI32 (0 * 16777216 + 0 * 65536 + 0 * 256 + 0) ∧
     -2147483648 ≤ (0 : Int) ∧ (0 : Int) < 2147483648) := by
  refine ⟨by decide, ?_⟩
  have h := claim_C4_header_fields 8 0 0 2 0 0 0 0 [0xAF, 7] .preTagSize []
    ⟨⟨.audio, 2, 0⟩, .audio ⟨.aac, .r44kHz, .s16Bit, .stereo⟩ [7]⟩
    (by decide) (by decide) (by decide) (by decide)
  exact h

/-- C5: whenever a tag record is emitted, exactly `11 + dataSize` bytes
are consumed from the front of the buffer (the remainder is the original
buffer's suffix after those bytes), and the payload handed out has length
`dataSize - 1` for audio and video tags and `dataSize` for script and
reserved tags. -/
theorem claim_C5_consumption (src : List Nat) (s' : CodecStatus)
    (b : List Nat) (t : Tag)
    (h : decode .tag src = (s', b, .emit (.tag t))) :
    b = src.drop (TAG_HEADER_SIZE + t.header.data_size) ∧
    (∀ ah p, t.data = .audio ah p → p.length = t.header.data_size - 1) ∧
    (∀ vh p, t.data = .video vh p → p.length = t.header.data_size - 1) ∧
    (∀ p, t.data = .script p → p.length = t.header.data_size) ∧
    (∀ p, t.data = .reserved p → p.length = t.header.data_size) := by
  rcases src with _ | ⟨tt, _ | ⟨s1, _ | ⟨s2, _ | ⟨s3, _ | ⟨t1, _ | ⟨t2, _ |
    ⟨t3, _ | ⟨t0, _ | ⟨z1, _ | ⟨z2, _ | ⟨z3, rest⟩⟩⟩⟩⟩⟩⟩⟩⟩⟩⟩ <;>
    simp only [decode] at h
  case cons.cons.cons.cons.cons.cons.cons.cons.cons.cons.cons =>
    by_cases hz : z1 = 0 ∧ z2 = 0 ∧ z3 = 0
    · rw [if_pos hz] at h
      obtain ⟨rfl, rfl, rfl⟩ := hz
      by_cases hlen : s1 * 65536 + s2 * 256 + s3 ≤ rest.length
      · rw [if_pos hlen] at h
        have hf : finishTag _ _ = .emit (.tag t) := congrArg (fun p => p.2.2) h
        have hb : b = rest.drop (s1 * 65536 + s2 * 256 + s3) :=
          (congrArg (fun p => p.2.1) h).symm
        have hhead := finishTag_emit_header _ _ t hf
        have hdata := finishTag_emit_data _ _ t hf
        have htake : (rest.take (s1 * 65536 + s2 * 256 + s3)).length =
            s1 * 65536 + s2 * 256 + s3 := by
          simp [List.length_take]
          omega
        rw [htake] at hdata
        have hds : t.header.data_size = s1 * 65536 + s2 * 256 + s3 := by
          rw [hhead]
        rw [hds]
        refine ⟨?_, hdata.1, hdata.2.1, hdata.2.2.1, hdata.2.2.2⟩
        rw [hb]
        show _ = List.drop (11 + (s1 * 65536 + s2 * 256 + s3)) _
        rw [← List.drop_drop (s1 * 65536 + s2 * 256 + s3) 11]
        rfl
      · rw [if_neg hlen] at h
        simp at h
    · rw [if_neg hz] at h
      simp at h
  all_goals simp at h

/-- Witness for C5 at a concrete script tag. -/
theorem claim_C5_witness :
    ([5, 6] : List Nat) =
      ([18, 0, 0, 2, 0, 0, 0, 0, 0, 0, 0, 1, 2, 5, 6] : List Nat).drop
        (TAG_HEADER_SIZE +
          (Tag.mk ⟨.script, 2, 0⟩ (.script [1, 2])).header.data_size) ∧
    (∀ ah p, (Tag.mk ⟨.script, 2, 0⟩ (.script [1, 2])).data = .audio ah p →
      p.length = (Tag.mk ⟨.script, 2, 0⟩ (.script [1, 2])).header.data_size - 1) ∧
    (∀ vh p, (Tag.mk ⟨.script, 2, 0⟩ (.script [1, 2])).data = .video vh p →
      p.length = (Tag.mk ⟨.script, 2, 0⟩ (.script [1, 2])).header.data_size - 1) ∧
    (∀ p, (Tag.mk ⟨.script, 2, 0⟩ (.script [1, 2])).data = .script p →
      p.length = (Tag.mk ⟨.script, 2, 0⟩ (.script [1, 2])).header.data_size) ∧
    (∀ p, (Tag.mk ⟨.script, 2, 0⟩ (.script [1, 2])).data = .reserved p →
      p.length = (Tag.mk ⟨.script, 2, 0⟩ (.script [1, 2])).header.data_size) :=
  claim_C5_consumption [18, 0, 0, 2, 0, 0, 0, 0, 0, 0, 0, 1, 2, 5, 6]
    .preTagSize [5, 6] (Tag.mk ⟨.script, 2, 0⟩ (.script [1, 2])) (by decide)

/-- C6: in the tag state with a full 11-byte header buffered, any nonzero
byte among the three stream-id bytes at offsets 8, 9, 10 makes the decode
step fail with the invalid-tag-header error, whatever the other fields
hold and whether or not the body is buffered; the buffer and state are
left as they were. -/
theorem claim_C6_nonzero_stream_id
    (tt s1 s2 s3 t1 t2 t3 t0 z1 z2 z3 : Nat) (rest : List Nat)
    (hz : ¬ (z1 = 0 ∧ z2 = 0 ∧ z3 = 0)) :
    decode .tag
        (tt :: s1 :: s2 :: s3 :: t1 :: t2 :: t3 :: t0 :: z1 :: z2 :: z3 :: rest) =
      (.tag, tt :: s1 :: s2 :: s3 :: t1 :: t2 :: t3 :: t0 :: z1 :: z2 :: z3 :: rest,
       .fail (.invalidTagHeader [tt, s1, s2, s3, t1, t2, t3, t0, z1, z2, z3])) := by
  simp only [decode, if_neg hz]

/-- Witness for C6: a stream-id byte set to 1 on an otherwise valid
audio-tag header with its full body buffered. -/
theorem claim_C6_witness :
    ¬ ((0 : Nat) = 0 ∧ (0 : Nat) = 0 ∧ (1 : Nat) = 0) ∧
    decode .tag [8, 0, 0, 2, 0, 0, 0, 0, 0, 0, 1, 0xAF, 7] =
      (.tag, [8, 0, 0, 2, 0, 0, 0, 0, 0, 0, 1, 0xAF, 7],
       .fail (.invalidTagHeader [8, 0, 0, 2, 0, 0, 0, 0, 0, 0, 1])) :=
  ⟨by decide, claim_C6_nonzero_stream_id 8 0 0 2 0 0 0 0 0 0 1 [0xAF, 7] (by decide)⟩

/-- Checker relating a successfully decoded audio header's four variants
back to the bit fields of the input byte, through the variant codes
(trivially true on errors; the error side is stated separately). -/
def audioFieldsMatch (b : Nat) : Bool :=
  match AudioDataHeader.tryFrom b with
  | .ok h =>
    h.sound_format.code == (b &&& 0xF0) >>> 4 &&
    h.sound_rate.code == (b &&& 0x0C) >>> 2 &&
    h.sound_size.code == (b &&& 0x02) >>> 1 &&
    h.sound_type.code == (b &&& 0x01)
  | .error _ => true

/-- Checker relating a successfully decoded video header's two variants
back to the bit fields of the input byte, through the variant codes. -/
def videoFieldsMatch (b : Nat) : Bool :=
  match VideoDataHeader.tryFrom b with
  | .ok h =>
    h.frame_type.code == (b &&& 0xF0) >>> 4 &&
    h.codec_id.code == (b &&& 0x0F)
  | .error _ => true

/-- C7: for every byte, the audio bitfield decoder fails exactly when the
top nibble is 12 or 13, with the invalid-sound-format error carrying that
nibble; on success the four decoded variants are exactly the ones coded by
the byte's sub-fields; the rate, size, and type sub-decoders never fail;
and byte `0xAF` decodes to AAC, 44 kHz, 16-bit, stereo. -/
theorem claim_C7_audio_bitfields :
    (∀ b : Nat, b < 256 →
      (((b &&& 0xF0) >>> 4 = 12 ∨ (b &&& 0xF0) >>> 4 = 13) ↔
        AudioDataHeader.tryFrom b =
          .error (.invalidSoundFormat ((b &&& 0xF0) >>> 4)))) ∧
    (∀ b : Nat, b < 256 → (b &&& 0xF0) >>> 4 ≠ 12 → (b &&& 0xF0) >>> 4 ≠ 13 →
      (AudioDataHeader.tryFrom b).isOk = true) ∧
    (∀ b : Nat, b < 256 → audioFieldsMatch b = true) ∧
    (∀ b : Nat, b < 256 → (SoundRate.tryFrom b).isOk = true ∧
      (SoundSize.tryFrom b).isOk = true ∧ (SoundType.tryFrom b).isOk = true) ∧
    AudioDataHeader.tryFrom 0xAF = .ok ⟨.aac, .r44kHz, .s16Bit, .stereo⟩ := by
  refine ⟨?_, ?_, ?_, ?_, ?_⟩ <;> decide

/-- Witness for C7 at bytes `0xC5` (nibble 12, must fail) and `0x2F`. -/
theorem claim_C7_witness :
    (((0xC5 &&& 0xF0) >>> 4 = 12 ∨ (0xC5 &&& 0xF0) >>> 4 = 13) ↔
      AudioDataHeader.tryFrom 0xC5 =
        .error (.invalidSoundFormat ((0xC5 &&& 0xF0) >>> 4))) ∧
    audioFieldsMatch 0x2F = true :=
  ⟨claim_C7_audio_bitfields.1 0xC5 (by decide),
   claim_C7_audio_bitfields.2.2.1 0x2F (by decide)⟩

/-- C8: for every byte, the video bitfield decoder fails with the
invalid-frame-type error (carrying the top nibble) whenever the top
nibble is outside 1..5 — in particular before any codec check — fails
with the invalid-codec-id error (carrying the low nibble) when the frame
type is valid but the low nibble is outside 1..7, succeeds otherwise with
the variants coded by the two nibbles, and byte `0x17` decodes to
key-frame, AVC. -/
theorem claim_C8_video_bitfields :
    (∀ b : Nat, b < 256 →
      ¬ (1 ≤ (b &&& 0xF0) >>> 4 ∧ (b &&& 0xF0) >>> 4 ≤ 5) →
      VideoDataHeader.tryFrom b = .error (.invalidFrameType ((b &&& 0xF0) >>> 4))) ∧
    (∀ b : Nat, b < 256 →
      (1 ≤ (b &&& 0xF0) >>> 4 ∧ (b &&& 0xF0) >>> 4 ≤ 5) →
      ¬ (1 ≤ b &&& 0x0F ∧ b &&& 0x0F ≤ 7) →
      VideoDataHeader.tryFrom b = .error (.invalidCodecId (b &&& 0x0F))) ∧
    (∀ b : Nat, b < 256 →
      (1 ≤ (b &&& 0xF0) >>> 4 ∧ (b &&& 0xF0) >>> 4 ≤ 5) →
      (1 ≤ b &&& 0x0F ∧ b &&& 0x0F ≤ 7) →
      (VideoDataHeader.tryFrom b).isOk = true) ∧
    (∀ b : Nat, b < 256 → videoFieldsMatch b = true) ∧
    VideoDataHeader.tryFrom 0x17 = .ok ⟨.keyFrame, .avc⟩ := by
  refine ⟨?_, ?_, ?_, ?_, ?_⟩ <;> decide

/-- Witness for C8 at byte `0x08` (frame type 0 and codec 8 both invalid:
the frame-type error wins) and byte `0x23`. -/
theorem claim_C8_witness :
    VideoDataHeader.tryFrom 0x08 = .error (.invalidFrameType 0) ∧
    videoFieldsMatch 0x23 = true :=
  ⟨claim_C8_video_bitfields.1 0x08 (by decide) (by decide),
   claim_C8_video_bitfields.2.2.2.1 0x23 (by decide)⟩

/-- C9: a 9-byte input starting with the ASCII bytes `F`, `L`, `V`
parses into version = byte 3, type flags = byte 4, and data offset = the
big-endian 32-bit value of bytes 5-8; any 9-byte input not starting with
those three bytes fails with the malformed-signature error. -/
theorem claim_C9_file_header :
    (∀ version type_ o1 o2 o3 o4 : Nat,
      parseFileHeader [70, 76, 86, version, type_, o1, o2, o3, o4] =
        .ok ⟨version, type_, o1 * 16777216 + o2 * 65536 + o3 * 256 + o4⟩) ∧
    (∀ l : List Nat, l.length = 9 → l.take 3 ≠ [70, 76, 86] →
      parseFileHeader l = .error .malformedSignature) := by
  constructor
  · intro version type_ o1 o2 o3 o4
    simp [parseFileHeader]
  · intro l h9 hsig
    rcases l with _ | ⟨b0, _ | ⟨b1, _ | ⟨b2, _ | ⟨b3, _ | ⟨b4, _ | ⟨b5, _ |
      ⟨b6, _ | ⟨b7, _ | ⟨b8, _ | ⟨b9, rest⟩⟩⟩⟩⟩⟩⟩⟩⟩⟩ <;> simp at h9
    simp only [List.take, ne_eq, List.cons.injEq, and_true] at hsig
    simp only [parseFileHeader]
    rw [if_neg]
    intro ⟨e0, e1, e2⟩
    exact hsig ⟨e0, e1, e2⟩

/-- Witness for C9: a valid header and one with a corrupted signature. -/
theorem claim_C9_witness :
    ([71, 76, 86, 1, 5, 0, 0, 0, 9] : List Nat).length = 9 ∧
    parseFileHeader [71, 76, 86, 1, 5, 0, 0, 0, 9] = .error .malformedSignature :=
  ⟨by decide, claim_C9_file_header.2 [71, 76, 86, 1, 5, 0, 0, 0, 9]
    (by decide) (by decide)⟩

/-- The body dispatch panics exactly for an audio or video tag whose body
is empty (nothing to feed the one-byte bitfield decoder). -/
theorem finishTag_crash (header : TagHeader) (db : List Nat)
    (h : finishTag header db = .crash) :
    (header.tag_type = .audio ∨ header.tag_type = .video) ∧ db = [] := by
  obtain ⟨ty, ds, ts⟩ := header
  cases ty with
  | audio =>
    rcases db with _ | ⟨b, payload⟩
    · exact ⟨Or.inl rfl, rfl⟩
    · simp only [finishTag] at h
      rcases ha : AudioDataHeader.tryFrom b with e | hh <;> rw [ha] at h <;>
        simp_all
  | video =>
    rcases db with _ | ⟨b, payload⟩
    · exact ⟨Or.inr rfl, rfl⟩
    · simp only [finishTag] at h
      rcases hv : VideoDataHeader.tryFrom b with e | hh <;> rw [hv] at h <;>
        simp_all
  | script => simp [finishTag] at h
  | reserved raw => simp [finishTag] at h

/-- C10: if an audio or video tag declares `dataSize = 0` and its body
dispatch is reached, the decode step hits the panicking `get_u8` on the
empty body instead of returning a decode error; and this is the only way
the step can panic, so the step is total exactly when audio and video
tags have `dataSize ≥ 1`. -/
theorem claim_C10_zero_size_panic :
    (∀ t1 t2 t3 t0 : Nat, ∀ rest : List Nat,
      decode .tag (8 :: 0 :: 0 :: 0 :: t1 :: t2 :: t3 :: t0 :: 0 :: 0 :: 0 :: rest) =
        (.preTagSize, rest, .crash)) ∧
    (∀ t1 t2 t3 t0 : Nat, ∀ rest : List Nat,
      decode .tag (9 :: 0 :: 0 :: 0 :: t1 :: t2 :: t3 :: t0 :: 0 :: 0 :: 0 :: rest) =
        (.preTagSize, rest, .crash)) ∧
    (∀ (s : CodecStatus) (src : List Nat) (s' : CodecStatus) (b : List Nat),
      decode s src = (s', b, .crash) →
      s = .tag ∧ ∃ tt t1 t2 t3 t0 rest,
        src = tt :: 0 :: 0 :: 0 :: t1 :: t2 :: t3 :: t0 :: 0 :: 0 :: 0 :: rest ∧
        (tt = 8 ∨ tt = 9)) := by
  refine ⟨?_, ?_, ?_⟩
  · intro t1 t2 t3 t0 rest
    simp [decode, finishTag, TagType.ofByte]
  · intro t1 t2 t3 t0 rest
    simp [decode, finishTag, TagType.ofByte]
  · intro s src s' b h
    cases s
    · exfalso
      rcases src with _ | ⟨b0, _ | ⟨b1, _ | ⟨b2, _ | ⟨b3, rest⟩⟩⟩⟩ <;>
        simp [decode] at h
    · refine ⟨rfl, ?_⟩
      rcases src with _ | ⟨tt, _ | ⟨s1, _ | ⟨s2, _ | ⟨s3, _ | ⟨t1, _ | ⟨t2, _ |
        ⟨t3, _ | ⟨t0, _ | ⟨z1, _ | ⟨z2, _ | ⟨z3, rest⟩⟩⟩⟩⟩⟩⟩⟩⟩⟩⟩ <;>
        simp only [decode] at h
      case cons.cons.cons.cons.cons.cons.cons.cons.cons.cons.cons =>
        by_cases hz : z1 = 0 ∧ z2 = 0 ∧ z3 = 0
        · rw [if_pos hz] at h
          obtain ⟨rfl, rfl, rfl⟩ := hz
          by_cases hlen : s1 * 65536 + s2 * 256 + s3 ≤ rest.length
          · rw [if_pos hlen] at h
            have hf : finishTag _ _ = .crash := congrArg (fun p => p.2.2) h
            obtain ⟨hty, hdb⟩ := finishTag_crash _ _ hf
            have hds : s1 * 65536 + s2 * 256 + s3 = 0 := by
              rcases List.take_eq_nil_iff.mp hdb with h0 | h0
              · exact h0
              · rw [h0] at hlen
                simp at hlen
                omega
            have hs : s1 = 0 ∧ s2 = 0 ∧ s3 = 0 := by omega
            obtain ⟨rfl, rfl, rfl⟩ := hs
            have htt : tt = 8 ∨ tt = 9 := by
              by_cases h8 : tt = 8
              · exact Or.inl h8
              · by_cases h9 : tt = 9
                · exact Or.inr h9
                · exfalso
                  rcases hty with hty | hty <;>
                    simp [TagType.ofByte, h8, h9] at hty <;>
                    split at hty <;> simp_all
            exact ⟨tt, t1, t2, t3, t0, rest, rfl, htt⟩
          · rw [if_neg hlen] at h
            simp at h
        · rw [if_neg hz] at h
          simp at h
      all_goals simp_all

/-- Witness for C10's panic-only-here direction at a concrete buffer. -/
theorem claim_C10_witness :
    CodecStatus.tag = CodecStatus.tag ∧
    ∃ tt t1 t2 t3 t0 rest,
      ([9, 0, 0, 0, 1, 2, 3, 4, 0, 0, 0] : List Nat) =
        tt :: 0 :: 0 :: 0 :: t1 :: t2 :: t3 :: t0 :: 0 :: 0 :: 0 :: rest ∧
      (tt = 8 ∨ tt = 9) :=
  claim_C10_zero_size_panic.2.2 .tag [9, 0, 0, 0, 1, 2, 3, 4, 0, 0, 0]
    .preTagSize [] (by decide)

end Flv
